import Mathlib

/-!
Verification development for the generalized-Collatz / Benford's-Law
parameter-space scanner.

The Python sources are shallowly embedded:
* Python arbitrary-precision integers become `ℤ` (or `ℕ` where the value is
  known non-negative).  Python `//` and `%` are floor division and floor
  modulus; for a positive divisor (the only case the code reaches, since the
  generator rejects `a <= 0`) these coincide with `Int.ediv` / `Int.emod`,
  which are used throughout.
* Python floats that carry exact statistics (Benford probabilities, MAD,
  Dmix, chi-squared) are idealized as exact reals `ℝ`; `float('nan')`,
  `float('inf')` and `None` results are all modelled by `Option` with `none`
  for the undefined value.  Wall-clock fields (`computation_time`) are not
  modelled.
* `while` loops get an explicit fuel argument large enough to cover every
  execution the surrounding code can reach, so every definition is a plain
  structurally recursive function that the kernel can evaluate.
-/

/-- The Python `range(lo, hi + 1)` used by the scanners: the integers from
`lo` to `hi` inclusive, in increasing order (empty when `hi < lo`). -/
def int_range (lo hi : ℤ) : List ℤ :=
  (List.range (hi + 1 - lo).toNat).map fun k => lo + (k : ℤ)

namespace CollatzGenerator

/-- The four ways the generation loop of `generalized_collatz`
(src/collatz_generator.py) can stop: `current == 1`, the magnitude guard
`current > 10**50`, the cycle-membership test, or exhaustion of
`max_iterations`.  The Python function does not return this tag; it is
instrumentation used to state claims about the termination conditions. -/
inductive StopReason where
  | reachedOne : StopReason
  | magnitudeExceeded : StopReason
  | cycleDetected : StopReason
  | iterationCap : StopReason
deriving DecidableEq, Repr

/-- The divergence guard of `generalized_collatz`: `current > 10**50`. -/
def MAGNITUDE_CEILING : ℤ := 10 ^ 50

/-- One pass of the loop `while numerator % a == 0 and numerator > 0:
numerator = numerator // a` from the transformation step of
`generalized_collatz`, run on explicit fuel.  The Python loop carries no
fuel; `maximal_divide` below supplies `|numerator|` passes, which always
suffice: the loop body only runs on a positive numerator divisible by `a`,
and the branch containing the loop is reachable only with `a ≥ 2` (for
`a = 1` the `current % a != 0` test guarding the branch is never true), so
each pass at least halves the numerator. -/
def maximal_divide_go (a : ℤ) : ℕ → ℤ → ℤ
  | 0, x => x
  | fuel + 1, x =>
      if x % a = 0 ∧ 0 < x then maximal_divide_go a fuel (x / a) else x

/-- The maximal-shortcut division applied to `numerator = b*current + c` in
the non-classical transformation step of `generalized_collatz`. -/
def maximal_divide (a x : ℤ) : ℤ := maximal_divide_go a x.natAbs x

/-- The body of one iteration of the `for _ in range(max_iterations)` loop of
`generalized_collatz`, mapping the current value to the next one:
division step when `current % a == 0`, otherwise `b*current + c` with the
maximal shortcut — suppressed exactly for the classical triple
`(a, b, c) = (2, 3, 1)`. -/
def collatz_step (a b c x : ℤ) : ℤ :=
  if x % a = 0 then
    x / a
  else
    if a = 2 ∧ b = 3 ∧ c = 1 then b * x + c
    else maximal_divide a (b * x + c)

/-- The main loop of `generalized_collatz`, with the remaining iteration
budget as fuel, the accumulated trajectory `seq` (Python `sequence`, whose
last element is `cur`), returning the final trajectory together with the
reason the loop stopped. Mirrors, in order: the `current == 1` check, the
magnitude safety check, the step computation, and the cycle-detection block
(which appends the repeated value once unless it already is the last
element). -/
def collatz_loop (a b c : ℤ) : ℕ → List ℤ → ℤ → List ℤ × StopReason
  | 0, seq, _ => (seq, .iterationCap)
  | fuel + 1, seq, cur =>
      if cur = 1 then (seq, .reachedOne)
      else if MAGNITUDE_CEILING < cur then (seq, .magnitudeExceeded)
      else
        if collatz_step a b c cur ∈ seq then
          if seq.getLast? ≠ some (collatz_step a b c cur) then
            (seq ++ [collatz_step a b c cur], .cycleDetected)
          else (seq, .cycleDetected)
        else
          collatz_loop a b c fuel (seq ++ [collatz_step a b c cur])
            (collatz_step a b c cur)

/-- `generalized_collatz` (src/collatz_generator.py) together with the
instrumented stop reason; `none` is the degenerate-input path
`if n <= 0 or a <= 0: return []`, where the loop never runs. -/
def generalized_collatz_run (n a b c : ℤ) (max_iterations : ℕ) :
    List ℤ × Option StopReason :=
  if n ≤ 0 ∨ a ≤ 0 then ([], none)
  else
    let r := collatz_loop a b c max_iterations [n] n
    (r.1, some r.2)

/-- The trajectory returned by `generalized_collatz(n, a, b, c,
max_iterations)`; exactly the Python return value. -/
def generalized_collatz (n a b c : ℤ) (max_iterations : ℕ) : List ℤ :=
  (generalized_collatz_run n a b c max_iterations).1

/-- The instrumented reason the generation of
`generalized_collatz n a b c max_iterations` stopped. -/
def generation_stop_reason (n a b c : ℤ) (max_iterations : ℕ) :
    Option StopReason :=
  (generalized_collatz_run n a b c max_iterations).2

/-- The recursion behind `get_leading_digit` (src/collatz_generator.py):
the first character of `str(abs(n))` is the most significant decimal digit,
computed here by repeated division by 10 on explicit fuel (a number has at
most as many decimal digits as its value, so fuel `n` always suffices). -/
def leading_digit_go : ℕ → ℕ → ℕ
  | 0, n => n
  | fuel + 1, n => if n < 10 then n else leading_digit_go fuel (n / 10)

/-- `get_leading_digit` (src/collatz_generator.py), the string-based exact
extractor `int(str(abs(n))[0])`; the `ValueError` raised on `n <= 0` is
modelled by `none`. -/
def get_leading_digit (n : ℤ) : Option ℕ :=
  if n ≤ 0 then none else some (leading_digit_go n.natAbs n.natAbs)

/-- `benford_distribution` (src/collatz_generator.py): the expected Benford
probability `log10(1 + 1/d)` of leading digit `d`; index `i : Fin 9` stands
for digit `i + 1`. -/
noncomputable def benford_distribution (i : Fin 9) : ℝ :=
  Real.logb 10 (1 + 1 / ((i : ℕ) + 1))

/-- `calculate_dmix` (src/collatz_generator.py): total variation distance
between the observed digit distribution and the Benford distribution.
The `float('nan')` returned on a zero-total histogram is modelled by
`none`. -/
noncomputable def calculate_dmix (observed_counts : Fin 9 → ℕ) : Option ℝ :=
  let total := ∑ i, observed_counts i
  if total = 0 then none
  else
    some ((∑ i, |(observed_counts i : ℝ) / (total : ℝ) - benford_distribution i|) / 2)

/-- `calculate_mad` (src/collatz_generator.py): mean absolute deviation of
the observed digit proportions from the Benford proportions.  The
`float('nan')` returned on a zero-total histogram is modelled by `none`. -/
noncomputable def calculate_mad (observed_counts : Fin 9 → ℕ) : Option ℝ :=
  let total := ∑ i, observed_counts i
  if total = 0 then none
  else
    some ((∑ i, |(observed_counts i : ℝ) / (total : ℝ) - benford_distribution i|) / 9)

/-- `digital_mixing_speed` (src/collatz_generator.py):
`(1 / mad) * log10(sample_size)`; the `float('inf')` returned when
`mad == 0` or `sample_size <= 0` is modelled by `none`. -/
noncomputable def digital_mixing_speed (mad : ℝ) (sample_size : ℕ) : Option ℝ :=
  if mad = 0 ∨ sample_size = 0 then none
  else some ((1 / mad) * Real.logb 10 (sample_size : ℝ))

/-- The `elif` chain of `SwissCheeseParameterScanner.add_trivial_patterns`
(src/collatz_generator.py), deciding whether one parameter triple is
appended to the trivial list: first matching rule of
(1) `a == 1`, (2) `b == 0 and c == 0`, (3) `b == 1 and c == 0`,
(4) `c == 0 and b % a == 0`, (5) `b < 0 and c < 0` makes it trivial. -/
def is_trivial (a b c : ℤ) : Bool :=
  if a = 1 then true
  else if b = 0 ∧ c = 0 then true
  else if b = 1 ∧ c = 0 then true
  else if c = 0 ∧ b % a = 0 then true
  else if b < 0 ∧ c < 0 then true
  else false

/-- The triple enumeration `for a in a_range: for b in b_range: for c in
c_range` (equivalently `itertools.product`) shared by
`add_trivial_patterns` and `scan_cube`: `a` outer, `b` middle, `c` inner. -/
def cube_triples (aR bR cR : List ℤ) : List (ℤ × ℤ × ℤ) :=
  aR.flatMap fun a => bR.flatMap fun b => cR.map fun c => (a, b, c)

/-- `SwissCheeseParameterScanner.add_trivial_patterns`
(src/collatz_generator.py): the list of trivial triples collected over the
scanner's ranges (the Python method then unions this list into
`self.holes`; the hole set is an explicit parameter of `scan_cube` below). -/
def add_trivial_patterns (aR bR cR : List ℤ) : List (ℤ × ℤ × ℤ) :=
  (cube_triples aR bR cR).filter fun t => is_trivial t.1 t.2.1 t.2.2

/-- The `a` range of `SwissCheeseParameterScanner.__init__`
(src/collatz_generator.py): `range(max(1, a0 - half), a0 + half + 1)` with
`half = cube_side_length // 2` — clipped so that `a >= 1`. -/
def scanner_a_range (center : ℤ × ℤ × ℤ) (side : ℕ) : List ℤ :=
  int_range (max 1 (center.1 - (side / 2 : ℕ))) (center.1 + (side / 2 : ℕ))

/-- The `b` range of `SwissCheeseParameterScanner.__init__`
(src/collatz_generator.py), unclipped. -/
def scanner_b_range (center : ℤ × ℤ × ℤ) (side : ℕ) : List ℤ :=
  int_range (center.2.1 - (side / 2 : ℕ)) (center.2.1 + (side / 2 : ℕ))

/-- The `c` range of `SwissCheeseParameterScanner.__init__`
(src/collatz_generator.py), unclipped. -/
def scanner_c_range (center : ℤ × ℤ × ℤ) (side : ℕ) : List ℤ :=
  int_range (center.2.2 - (side / 2 : ℕ)) (center.2.2 + (side / 2 : ℕ))

/-- The per-triple record built by
`SwissCheeseParameterScanner.analyze_single_parameter_set`
(src/collatz_generator.py).  `mad` and `dmix_variance` are `none` where the
Python floats are NaN, `digital_mixing_speed` is `none` where Python stores
`None`; the wall-clock `computation_time` field is not modelled. -/
structure ScanResult where
  parameters : ℤ × ℤ × ℤ
  initial_range : ℤ × ℤ
  digit_frequencies : Fin 9 → ℕ
  total_samples : ℕ
  mad : Option ℝ
  dmix_variance : Option ℝ
  digital_mixing_speed : Option ℝ

/-- `SwissCheeseParameterScanner.analyze_single_parameter_set`
(src/collatz_generator.py): run the generator for every starting value of
the inclusive range except 1, take the leading digit of every trajectory
term greater than 1 (the `try`/`except` around the extractor is modelled by
`filterMap`; it never fires because every such term is positive),
accumulate the digit histogram, and compute the metrics.
`digital_mixing_speed` is filled only when `mad_value > 0 and
total_samples > 0` — a NaN (`none`) MAD fails that comparison just as the
Python float NaN does. -/
noncomputable def analyze_single_parameter_set (a b c : ℤ)
    (initial_range : ℤ × ℤ) (max_iterations : ℕ) : ScanResult :=
  let ns := (int_range initial_range.1 initial_range.2).filter fun n => n ≠ 1
  let all_digits : List ℕ := ns.flatMap fun n =>
    ((generalized_collatz n a b c max_iterations).filter
        fun term => 1 < term).filterMap get_leading_digit
  let observed_counts : Fin 9 → ℕ := fun i => all_digits.count ((i : ℕ) + 1)
  let total_samples : ℕ := ∑ i, observed_counts i
  let mad_value := calculate_mad observed_counts
  let mix_speed : Option ℝ :=
    match mad_value with
    | some m =>
        if 0 < m ∧ 0 < total_samples then digital_mixing_speed m total_samples
        else none
    | none => none
  ⟨(a, b, c), initial_range, observed_counts, total_samples, mad_value,
    calculate_dmix observed_counts, mix_speed⟩

/-- `SwissCheeseParameterScanner.scan_cube` (src/collatz_generator.py):
enumerate the cube in `itertools.product` order, skip every triple in the
hole set, and record one analysis result per surviving triple.  The
`try`/`except` that lets a scan survive a per-triple failure never fires in
the embedding (every analysis is total), and the JSON/print side effects are
not modelled. -/
noncomputable def scan_cube (center : ℤ × ℤ × ℤ) (side : ℕ)
    (holes : Finset (ℤ × ℤ × ℤ)) (initial_range : ℤ × ℤ)
    (max_iterations : ℕ) : List ScanResult :=
  ((cube_triples (scanner_a_range center side) (scanner_b_range center side)
        (scanner_c_range center side)).filter fun t => t ∉ holes).map
    fun t => analyze_single_parameter_set t.1 t.2.1 t.2.2 initial_range
      max_iterations

/-- `SwissCheeseParameterScanner.find_best_benford_conformity`
(src/collatz_generator.py): keep the results whose MAD is a number (the
Python test `is not None and not isnan` collapses to `isSome`, since the
embedding stores NaN as `none`), sort ascending by MAD, truncate to
`top_n`. -/
noncomputable def find_best_benford_conformity (results : List ScanResult)
    (top_n : ℕ) : List ScanResult :=
  ((results.filter fun r => r.mad.isSome).mergeSort
      fun r s => decide (r.mad.getD 0 ≤ s.mad.getD 0)).take top_n

/-- `SwissCheeseParameterScanner.find_fastest_mixing`
(src/collatz_generator.py): keep the results whose mixing speed is a number
(`is not None and not isinf` collapses to `isSome`, since the embedding
stores `None` and infinity as `none`), sort descending, truncate. -/
noncomputable def find_fastest_mixing (results : List ScanResult)
    (top_n : ℕ) : List ScanResult :=
  ((results.filter fun r => r.digital_mixing_speed.isSome).mergeSort
      fun r s =>
        decide (s.digital_mixing_speed.getD 0 ≤ r.digital_mixing_speed.getD 0)).take
    top_n

end CollatzGenerator

namespace BenfordAnalyzer

/-- The recursion computing `floor(log10 n)` for `n ≥ 1` by repeated
division by 10 on explicit fuel (fuel `n` always suffices). -/
def log10floor_go : ℕ → ℕ → ℕ
  | 0, _ => 0
  | fuel + 1, n => if n < 10 then 0 else log10floor_go fuel (n / 10) + 1

/-- `floor(log10 n)` for `n ≥ 1` (and 0 for `n = 0`). -/
def log10floor (n : ℕ) : ℕ := log10floor_go n n

/-- `get_leading_digit` (src/benford_analyzer.py): `exponent =
floor(log10(n))`, then `floor(n / 10**exponent)`, with a `ValueError`
(modelled `none`) on `n <= 0`.  The arithmetic is modelled exactly: with
exact `log10` and exact division this is integer division by
`10^⌊log10 n⌋`.  The double-precision rounding of the Python
implementation (which, e.g., maps `10**16 - 1` to 0) is deliberately not
modelled; that divergence is recorded in the analysis of claim C2. -/
def get_leading_digit (n : ℤ) : Option ℕ :=
  if n ≤ 0 then none else some (n.natAbs / 10 ^ log10floor n.natAbs)

/-- `analyze_leading_digits` (src/benford_analyzer.py): count, for each
digit `i + 1`, the elements of the sequence for which the digit extractor
returns that digit.  The Python function counts a number when
`number > 0` and the digit extracted by its `get_leading_digit` lies in
`1..9`, skips extractor `ValueError`s (modelled by the extractor
returning `none`), and zero-fills the digits `1..9`; returning a total
function on `Fin 9` realizes the zero-fill, and the `1 <= digit <= 9`
guard is subsumed by indexing over `Fin 9`.  Because the source's
extractor evaluates `log10` and the final division in IEEE-754 double
precision — arithmetic that has no exact shallow embedding, and that for
inputs such as `10^16 - 1` yields a value outside `1..9` (see the C2
analysis) — the extractor is kept as the parameter `gld`; the
exact-arithmetic `get_leading_digit` above is its idealization, usable as
an instance on inputs where double precision is exact. -/
def analyze_leading_digits (gld : ℤ → Option ℕ) (sequence : List ℤ) :
    Fin 9 → ℕ := fun i =>
  sequence.countP fun number =>
    decide (0 < number) && (gld number == some ((i : ℕ) + 1))

end BenfordAnalyzer

namespace StatisticalTests

/-- `BENFORD_EXPECTED_PROBABILITIES` (src/statistical_tests.py):
`log10(1 + 1/d)` for digits `d = 1..9`; index `i : Fin 9` stands for digit
`i + 1`. -/
noncomputable def BENFORD_EXPECTED_PROBABILITIES (i : Fin 9) : ℝ :=
  Real.logb 10 (1 + 1 / ((i : ℕ) + 1))

/-- Python's `round(x, k)` idealized over exact reals.  (At exact halfway
points Python rounds half-to-even while `round` rounds half-up; no claim
below depends on a halfway point.) -/
noncomputable def roundTo (k : ℕ) (x : ℝ) : ℝ :=
  ((round (x * 10 ^ k) : ℤ) : ℝ) / 10 ^ k

/-- `get_expected_counts` (src/statistical_tests.py): expected count of each
digit under Benford's law for the given total. -/
noncomputable def get_expected_counts (total_samples : ℕ) (i : Fin 9) : ℝ :=
  (total_samples : ℝ) * BENFORD_EXPECTED_PROBABILITIES i

/-- `run_chi_squared_test` (src/statistical_tests.py): the chi-squared
statistic `sum((obs - exp)^2 / exp)` of `scipy.stats.chisquare` computed
exactly, the p-value obtained from the chi-squared(df = 8) survival
function — an external SciPy routine, passed in as the uninterpreted
parameter `chi2sf` — and the conformity verdict `p_value > alpha` with
`alpha = 0.05`.  Returns (rounded statistic, rounded p-value, verdict); the
constant `degrees_of_freedom = 8` field is not carried. -/
noncomputable def run_chi_squared_test (chi2sf : ℝ → ℝ)
    (observed_counts : Fin 9 → ℕ) (total_samples : ℕ) : ℝ × ℝ × Bool :=
  let expected := get_expected_counts total_samples
  let chi_squared_stat :=
    ∑ i, ((observed_counts i : ℝ) - expected i) ^ 2 / expected i
  let p_value := chi2sf chi_squared_stat
  (roundTo 4 chi_squared_stat, roundTo 4 p_value, decide (0.05 < p_value))

/-- `run_kolmogorov_smirnov_test` (src/statistical_tests.py): the maximum
absolute difference between the observed and expected cumulative digit
distributions (`np.max` over the nine cumulative sums), rounded.  The
Python dict carries the same number under the two keys `ks_statistic` and
`ks_d_max`; one copy is kept. -/
noncomputable def run_kolmogorov_smirnov_test (observed_counts : Fin 9 → ℕ)
    (total_samples : ℕ) : ℝ :=
  let observed_cdf : Fin 9 → ℝ := fun i =>
    ∑ j ∈ Finset.Iic i, (observed_counts j : ℝ) / (total_samples : ℝ)
  let expected_cdf : Fin 9 → ℝ := fun i =>
    ∑ j ∈ Finset.Iic i, BENFORD_EXPECTED_PROBABILITIES j
  roundTo 4
    (Finset.univ.sup' ⟨0, Finset.mem_univ 0⟩
      fun i => |observed_cdf i - expected_cdf i|)

/-- `calculate_mad` (src/statistical_tests.py): mean absolute deviation of
observed from expected digit proportions, `sum |obs - exp| / 9`, with the
conformity verdict `mad < 0.015` (the verdict is computed from the
unrounded value, the reported MAD is rounded to 5 places). -/
noncomputable def stats_calculate_mad (observed_counts : Fin 9 → ℕ)
    (total_samples : ℕ) : ℝ × Bool :=
  let mad_value :=
    (∑ i, |(observed_counts i : ℝ) / (total_samples : ℝ) -
        BENFORD_EXPECTED_PROBABILITIES i|) / 9
  (roundTo 5 mad_value, decide (mad_value < 0.015))

/-- The aggregated record returned by `analyze_conformity`
(src/statistical_tests.py). -/
structure ConformityStats where
  total_samples : ℕ
  chi_squared_statistic : ℝ
  p_value : ℝ
  conforms_chi_squared : Bool
  ks_statistic : ℝ
  mad : ℝ
  conforms_mad : Bool
  conforms_benford : Bool

/-- `analyze_conformity` (src/statistical_tests.py): on a zero-total
histogram, short-circuit to the sentinel record (statistic 0.0, p-value
1.0, MAD 1.0, all verdicts false) without calling any test; otherwise run
the chi-squared, Kolmogorov-Smirnov and MAD computations and set the
overall verdict to the MAD verdict.  `chi2sf` is the SciPy
chi-squared(df = 8) survival function, an external routine kept as an
uninterpreted parameter. -/
noncomputable def analyze_conformity (chi2sf : ℝ → ℝ)
    (observed_counts : Fin 9 → ℕ) : ConformityStats :=
  let total_samples := ∑ i, observed_counts i
  if total_samples = 0 then
    { total_samples := 0
      chi_squared_statistic := 0
      p_value := 1
      conforms_chi_squared := false
      ks_statistic := 0
      mad := 1
      conforms_mad := false
      conforms_benford := false }
  else
    let chi := run_chi_squared_test chi2sf observed_counts total_samples
    let ks := run_kolmogorov_smirnov_test observed_counts total_samples
    let madr := stats_calculate_mad observed_counts total_samples
    { total_samples := total_samples
      chi_squared_statistic := chi.1
      p_value := chi.2.1
      conforms_chi_squared := chi.2.2
      ks_statistic := ks
      mad := madr.1
      conforms_mad := madr.2
      conforms_benford := madr.2 }

end StatisticalTests

namespace Pipeline

/-- The `elif` chain of `SwissCheeseParameterScanner.add_trivial_patterns`
in src/pipeline.py.  Unlike the version in src/collatz_generator.py it has
no `a == 1` rule, and its immediate-division rule tests `b % 2 == 0`
(`b` even) instead of `b % a == 0`. -/
def is_trivial (a b c : ℤ) : Bool :=
  if b = 0 ∧ c = 0 then true
  else if b = 1 ∧ c = 0 then true
  else if c = 0 ∧ b % 2 = 0 then true
  else if b < 0 ∧ c < 0 then true
  else false

/-- `SwissCheeseParameterScanner.add_trivial_patterns` (src/pipeline.py):
the list of trivial triples collected over the scanner's ranges.  The
unused binder `a` is kept because the rule chain of this version never
reads it. -/
def add_trivial_patterns (aR bR cR : List ℤ) : List (ℤ × ℤ × ℤ) :=
  (CollatzGenerator.cube_triples aR bR cR).filter fun t =>
    is_trivial t.1 t.2.1 t.2.2

/-- The `a` range of `SwissCheeseParameterScanner.__init__`
(src/pipeline.py): `range(a0 - half, a0 + half + 1)` — this version does
not clip the range at 1. -/
def pipeline_a_range (center : ℤ × ℤ × ℤ) (side : ℕ) : List ℤ :=
  int_range (center.1 - (side / 2 : ℕ)) (center.1 + (side / 2 : ℕ))

/-- The `b` range of `SwissCheeseParameterScanner.__init__`
(src/pipeline.py). -/
def pipeline_b_range (center : ℤ × ℤ × ℤ) (side : ℕ) : List ℤ :=
  int_range (center.2.1 - (side / 2 : ℕ)) (center.2.1 + (side / 2 : ℕ))

/-- The `c` range of `SwissCheeseParameterScanner.__init__`
(src/pipeline.py). -/
def pipeline_c_range (center : ℤ × ℤ × ℤ) (side : ℕ) : List ℤ :=
  int_range (center.2.2 - (side / 2 : ℕ)) (center.2.2 + (side / 2 : ℕ))

/-- `calculate_dmix` in src/pipeline.py is an identical copy of the one in
src/collatz_generator.py. -/
noncomputable def calculate_dmix := CollatzGenerator.calculate_dmix

/-- `digital_mixing_speed` in src/pipeline.py is an identical copy of the
one in src/collatz_generator.py. -/
noncomputable def digital_mixing_speed := CollatzGenerator.digital_mixing_speed

/-- The per-triple record built by
`SwissCheeseParameterScanner.analyze_single_parameter_set`
(src/pipeline.py): the scanned triple and range, the digit histogram, the
full `analyze_conformity` statistics, and the two custom metrics the
method splices into the result dict.  `computation_time` is not
modelled. -/
structure ScanRecord where
  parameters : ℤ × ℤ × ℤ
  initial_range : ℤ × ℤ
  digit_frequencies : Fin 9 → ℕ
  total_samples : ℕ
  stats : StatisticalTests.ConformityStats
  digital_mixing_speed : Option ℝ
  dmix_variance : Option ℝ

/-- `SwissCheeseParameterScanner.analyze_single_parameter_set`
(src/pipeline.py): same trajectory sweep as the collatz_generator version,
but the digits come from `benford_analyzer.get_leading_digit` and the
statistics from `statistical_tests.analyze_conformity`.  The mixing speed
is filled when the (always present, never NaN here) MAD of the statistics
record is positive. -/
noncomputable def analyze_single_parameter_set (chi2sf : ℝ → ℝ) (a b c : ℤ)
    (initial_range : ℤ × ℤ) (max_iterations : ℕ) : ScanRecord :=
  let ns := (int_range initial_range.1 initial_range.2).filter fun n => n ≠ 1
  let all_digits : List ℕ := ns.flatMap fun n =>
    ((CollatzGenerator.generalized_collatz n a b c max_iterations).filter
        fun term => 1 < term).filterMap BenfordAnalyzer.get_leading_digit
  let observed_counts : Fin 9 → ℕ := fun i => all_digits.count ((i : ℕ) + 1)
  let stats := StatisticalTests.analyze_conformity chi2sf observed_counts
  let total_samples : ℕ := ∑ i, observed_counts i
  let mix_speed : Option ℝ :=
    if 0 < stats.mad then digital_mixing_speed stats.mad total_samples
    else none
  ⟨(a, b, c), initial_range, observed_counts, total_samples, stats,
    mix_speed, calculate_dmix observed_counts⟩

/-- `SwissCheeseParameterScanner.scan_cube` (src/pipeline.py): enumerate
the cube in `itertools.product` order, skip every triple in the hole set,
and record one analysis per surviving triple. -/
noncomputable def scan_cube (chi2sf : ℝ → ℝ) (center : ℤ × ℤ × ℤ) (side : ℕ)
    (holes : Finset (ℤ × ℤ × ℤ)) (initial_range : ℤ × ℤ)
    (max_iterations : ℕ) : List ScanRecord :=
  ((CollatzGenerator.cube_triples (pipeline_a_range center side)
        (pipeline_b_range center side) (pipeline_c_range center side)).filter
      fun t => t ∉ holes).map
    fun t => analyze_single_parameter_set chi2sf t.1 t.2.1 t.2.2 initial_range
      max_iterations

end Pipeline

/-- The trivial-state rule set exactly as the specification words it for
the classifier contract: rules applied in order, first match governs —
which, since every rule classifies as trivial, is the disjunction of the
five rules.  (This definition follows the spec's words, to be compared
with the source-derived `CollatzGenerator.is_trivial` and
`Pipeline.is_trivial`.) -/
def spec_trivial_rules (a b c : ℤ) : Prop :=
  a = 1 ∨ (b = 0 ∧ c = 0) ∨ (b = 1 ∧ c = 0) ∨ (c = 0 ∧ a ∣ b) ∨
    (b < 0 ∧ c < 0)

instance (a b c : ℤ) : Decidable (spec_trivial_rules a b c) := by
  unfold spec_trivial_rules; infer_instance

/-- The rule set that src/pipeline.py's classifier actually implements
(again, the first-match chain is equivalent to the disjunction): no `a = 1`
rule, and `b` even instead of `b ≡ 0 (mod a)` in the immediate-division
rule. -/
def pipeline_trivial_rules (a b c : ℤ) : Prop :=
  (b = 0 ∧ c = 0) ∨ (b = 1 ∧ c = 0) ∨ (c = 0 ∧ (2 : ℤ) ∣ b) ∨
    (b < 0 ∧ c < 0)

instance (a b c : ℤ) : Decidable (pipeline_trivial_rules a b c) := by
  unfold pipeline_trivial_rules; infer_instance

section SanityChecks

open CollatzGenerator

example : generalized_collatz 6 2 3 1 1000000 = [6, 3, 10, 5, 16, 8, 4, 2, 1] := by decide

example : generalized_collatz 19 2 3 1 1000000 =
    [19, 58, 29, 88, 44, 22, 11, 34, 17, 52, 26, 13, 40, 20, 10, 5, 16, 8, 4, 2, 1] := by
  decide

example : generalized_collatz 27 2 3 1 5 = [27, 82, 41, 124, 62, 31] := by decide

example : generalized_collatz 3 2 (-1) (-1) 10 = [3, -4, -2, -1, 0] := by decide

example : generation_stop_reason 3 2 (-1) (-1) 10 = some .cycleDetected := by decide

example : generalized_collatz 0 2 3 1 5 = [] := by decide

example : get_leading_digit ((10 : ℤ) ^ 16 - 1) = some 9 := by decide

example : BenfordAnalyzer.get_leading_digit ((10 : ℤ) ^ 16 - 1) = some 9 := by decide

example : BenfordAnalyzer.get_leading_digit 999999 = some 9 := by decide

example : BenfordAnalyzer.get_leading_digit 10 = some 1 := by decide

example : BenfordAnalyzer.analyze_leading_digits BenfordAnalyzer.get_leading_digit
      [1, 2, 3, 10, 25, 400, 55, 6, 7, 8, 9] =
    fun i => #[2, 2, 1, 1, 1, 1, 1, 1, 1].get i := by
  funext i; revert i; decide

example : is_trivial 1 5 3 = true := by decide

example : is_trivial 5 5 1 = false := by decide

example : Pipeline.is_trivial 1 5 3 = false := by decide

example : int_range 2 4 = [2, 3, 4] := by decide

end SanityChecks

/-! ## Generation-loop lemmas -/

namespace CollatzGenerator

/-- The generation loop only ever appends to the accumulated trajectory. -/
lemma collatz_loop_suffix (a b c : ℤ) :
    ∀ (fuel : ℕ) (seq : List ℤ) (cur : ℤ),
      ∃ t, (collatz_loop a b c fuel seq cur).1 = seq ++ t := by
  intro fuel
  induction fuel with
  | zero => intro seq cur; exact ⟨[], by simp [collatz_loop]⟩
  | succ f ih =>
      intro seq cur
      simp only [collatz_loop]
      split_ifs with h1 h2 h3 h4
      · exact ⟨[], by simp⟩
      · exact ⟨[], by simp⟩
      · exact ⟨[collatz_step a b c cur], rfl⟩
      · exact ⟨[], by simp⟩
      · obtain ⟨t, ht⟩ := ih (seq ++ [collatz_step a b c cur]) (collatz_step a b c cur)
        exact ⟨[collatz_step a b c cur] ++ t, by simp [ht]⟩

/-- Each loop iteration appends at most one element, and exactly one when
the iteration budget is what eventually stops the loop. -/
lemma collatz_loop_length (a b c : ℤ) :
    ∀ (fuel : ℕ) (seq : List ℤ) (cur : ℤ),
      (collatz_loop a b c fuel seq cur).1.length ≤ seq.length + fuel ∧
      ((collatz_loop a b c fuel seq cur).2 = StopReason.iterationCap →
        (collatz_loop a b c fuel seq cur).1.length = seq.length + fuel) := by
  intro fuel
  induction fuel with
  | zero => intro seq cur; simp [collatz_loop]
  | succ f ih =>
      intro seq cur
      simp only [collatz_loop]
      split_ifs with h1 h2 h3 h4
      · exact ⟨by simp <;> omega, fun h => absurd h (by decide)⟩
      · exact ⟨by simp <;> omega, fun h => absurd h (by decide)⟩
      · exact ⟨by simp <;> omega, fun h => absurd h (by decide)⟩
      · exact ⟨by simp <;> omega, fun h => absurd h (by decide)⟩
      · obtain ⟨hle, hcap⟩ := ih (seq ++ [collatz_step a b c cur]) (collatz_step a b c cur)
        refine ⟨by simp at hle ⊢; omega, fun h => ?_⟩
        have := hcap h
        simp at this ⊢
        omega

/-- An exactly divisible positive integer stays positive under division by
a positive modulus. -/
lemma ediv_pos_of_emod_zero {a x : ℤ} (ha : 1 ≤ a) (hx : 0 < x)
    (h : x % a = 0) : 0 < x / a := by
  have hdvd : a ∣ x := Int.dvd_of_emod_eq_zero h
  have hax : a ≤ x := Int.le_of_dvd hx hdvd
  have h1 : (1 : ℤ) ≤ x / a := by
    rw [Int.le_ediv_iff_mul_le (by omega : (0 : ℤ) < a)]; omega
  omega

/-- The maximal-shortcut loop keeps a positive numerator positive, for a
positive modulus. -/
lemma maximal_divide_go_pos {a : ℤ} (ha : 1 ≤ a) :
    ∀ (fuel : ℕ) {x : ℤ}, 0 < x → 0 < maximal_divide_go a fuel x := by
  intro fuel
  induction fuel with
  | zero => intro x hx; simpa [maximal_divide_go] using hx
  | succ f ih =>
      intro x hx
      simp only [maximal_divide_go]
      split_ifs with h
      · exact ih (ediv_pos_of_emod_zero ha hx h.1)
      · exact hx

/-- One step of the map sends positive values to positive values when
`a ≥ 1`, `b ≥ 0`, `c ≥ 0` and `b + c ≥ 1`. -/
lemma collatz_step_pos {a b c x : ℤ} (ha : 1 ≤ a) (hb : 0 ≤ b) (hc : 0 ≤ c)
    (hbc : 1 ≤ b + c) (hx : 0 < x) : 0 < collatz_step a b c x := by
  have hnum : 0 < b * x + c := by
    have h1x : (1 : ℤ) ≤ x := hx
    have := mul_le_mul_of_nonneg_left h1x hb
    linarith
  unfold collatz_step
  split_ifs with h1 h2
  · exact ediv_pos_of_emod_zero ha hx h1
  · exact hnum
  · exact maximal_divide_go_pos ha _ hnum

/-- The generation loop preserves positivity of the accumulated trajectory
under the hypotheses of `collatz_step_pos`. -/
lemma collatz_loop_pos {a b c : ℤ} (ha : 1 ≤ a) (hb : 0 ≤ b) (hc : 0 ≤ c)
    (hbc : 1 ≤ b + c) :
    ∀ (fuel : ℕ) (seq : List ℤ) (cur : ℤ), (∀ x ∈ seq, 0 < x) → 0 < cur →
      ∀ x ∈ (collatz_loop a b c fuel seq cur).1, 0 < x := by
  intro fuel
  induction fuel with
  | zero => intro seq cur hseq _; simpa [collatz_loop] using hseq
  | succ f ih =>
      intro seq cur hseq hcur
      simp only [collatz_loop]
      split_ifs with h1 h2 h3 h4
      · exact hseq
      · exact hseq
      · intro x hx
        rcases List.mem_append.mp hx with h | h
        · exact hseq x h
        · rcases List.mem_singleton.mp h with rfl
          exact collatz_step_pos ha hb hc hbc hcur
      · exact hseq
      · refine ih (seq ++ [collatz_step a b c cur]) (collatz_step a b c cur)
          (fun x hx => ?_) (collatz_step_pos ha hb hc hbc hcur)
        rcases List.mem_append.mp hx with h | h
        · exact hseq x h
        · rcases List.mem_singleton.mp h with rfl
          exact collatz_step_pos ha hb hc hbc hcur

/-- The generation loop keeps the accumulated trajectory duplicate-free
except, on cycle detection, for the final appended repeat. -/
lemma collatz_loop_nodup (a b c : ℤ) :
    ∀ (fuel : ℕ) (seq : List ℤ) (cur : ℤ), seq.Nodup →
      (collatz_loop a b c fuel seq cur).1.dropLast.Nodup ∧
      ((collatz_loop a b c fuel seq cur).1.Nodup ∨
        (collatz_loop a b c fuel seq cur).2 = StopReason.cycleDetected) ∧
      ∀ x : ℤ, (collatz_loop a b c fuel seq cur).1.count x ≤ 2 := by
  intro fuel
  induction fuel with
  | zero =>
      intro seq cur hnd
      refine ⟨hnd.sublist (List.dropLast_sublist seq), Or.inl hnd, fun x => ?_⟩
      simpa [collatz_loop] using le_trans (List.nodup_iff_count_le_one.mp hnd x) (by omega)
  | succ f ih =>
      intro seq cur hnd
      have hcount : ∀ x : ℤ, seq.count x ≤ 1 := List.nodup_iff_count_le_one.mp hnd
      simp only [collatz_loop]
      split_ifs with h1 h2 h3 h4
      · exact ⟨hnd.sublist (List.dropLast_sublist seq), Or.inl hnd,
          fun x => le_trans (hcount x) (by omega)⟩
      · exact ⟨hnd.sublist (List.dropLast_sublist seq), Or.inl hnd,
          fun x => le_trans (hcount x) (by omega)⟩
      · refine ⟨by simpa using hnd, Or.inr rfl, fun x => ?_⟩
        have hsing : ([collatz_step a b c cur].count x) ≤ 1 :=
          le_trans (List.count_le_length x [collatz_step a b c cur]) (by simp)
        calc (seq ++ [collatz_step a b c cur]).count x
            = seq.count x + [collatz_step a b c cur].count x := List.count_append ..
          _ ≤ 2 := by have := hcount x; omega
      · exact ⟨hnd.sublist (List.dropLast_sublist seq), Or.inl hnd,
          fun x => le_trans (hcount x) (by omega)⟩
      · refine ih (seq ++ [collatz_step a b c cur]) (collatz_step a b c cur) ?_
        simp [List.nodup_append, hnd, h3]

/-- On valid inputs the generator is the loop started from `[n]`. -/
lemma generalized_collatz_valid {n a : ℤ} (b c : ℤ) (M : ℕ)
    (hn : 1 ≤ n) (ha : 1 ≤ a) :
    generalized_collatz n a b c M = (collatz_loop a b c M [n] n).1 ∧
    generation_stop_reason n a b c M = some (collatz_loop a b c M [n] n).2 := by
  unfold generalized_collatz generation_stop_reason generalized_collatz_run
  rw [if_neg (by omega : ¬(n ≤ 0 ∨ a ≤ 0))]
  exact ⟨rfl, rfl⟩

end CollatzGenerator

/-! ## Claims about trajectory generation -/

open CollatzGenerator in
/-- C5: for every `n ≥ 1`, `a ≥ 1` and iteration cap `M`, the trajectory of
`generalized_collatz(n, a, b, c, M)` has at most `M + 1` elements, and has
exactly `M + 1` elements (the seed plus `M` computed steps) whenever the
generation stopped through the iteration cap rather than one of the other
termination conditions; in particular
`generalized_collatz(27, 2, 3, 1, max_iterations=5)` is
`[27, 82, 41, 124, 62, 31]` — length 6, first element 27, last element
31. -/
theorem claim_c5_iteration_cap :
    (∀ (n a b c : ℤ) (M : ℕ), 1 ≤ n → 1 ≤ a →
      (generalized_collatz n a b c M).length ≤ M + 1 ∧
      (generation_stop_reason n a b c M = some StopReason.iterationCap →
        (generalized_collatz n a b c M).length = M + 1)) ∧
    generalized_collatz 27 2 3 1 5 = [27, 82, 41, 124, 62, 31] := by
  constructor
  · intro n a b c M hn ha
    obtain ⟨hg, hr⟩ := generalized_collatz_valid b c M hn ha
    obtain ⟨hle, hcap⟩ := collatz_loop_length a b c M [n] n
    constructor
    · rw [hg]; simp only [List.length_singleton] at hle; omega
    · intro h
      rw [hr] at h
      rw [hg, hcap (Option.some_injective _ h)]
      simp only [List.length_singleton]
      omega
  · decide

/-- Witness for C5 at the concrete input of the claim. -/
theorem claim_c5_iteration_cap_witness :
    (CollatzGenerator.generalized_collatz 27 2 3 1 5).length ≤ 5 + 1 :=
  (claim_c5_iteration_cap.1 27 2 3 1 5 (by decide) (by decide)).1

open CollatzGenerator in
/-- C6: `generalized_collatz(n, a, b, c, M)` returns an empty trajectory
iff `n ≤ 0` or `a ≤ 0` (degenerate call, a no-op rather than an error);
for `n ≥ 1` and `a ≥ 1` the trajectory is non-empty and starts at `n`. -/
theorem claim_c6_degenerate_inputs :
    ∀ (n a b c : ℤ) (M : ℕ),
      (generalized_collatz n a b c M = [] ↔ n ≤ 0 ∨ a ≤ 0) ∧
      (1 ≤ n → 1 ≤ a → (generalized_collatz n a b c M).head? = some n) := by
  intro n a b c M
  by_cases h : n ≤ 0 ∨ a ≤ 0
  · have he : generalized_collatz n a b c M = [] := by
      unfold generalized_collatz generalized_collatz_run
      rw [if_pos h]
    exact ⟨by simp [he, h], fun hn ha => absurd h (by omega)⟩
  · push_neg at h
    have hg := (generalized_collatz_valid b c M (by omega : (1:ℤ) ≤ n) (by omega : (1:ℤ) ≤ a)).1
    obtain ⟨t, ht⟩ := collatz_loop_suffix a b c M [n] n
    rw [hg, ht]
    exact ⟨by simp [h], fun _ _ => by simp⟩

/-- Witness for C6 at a concrete valid input. -/
theorem claim_c6_degenerate_inputs_witness :
    (CollatzGenerator.generalized_collatz 6 2 3 1 10).head? = some 6 :=
  (claim_c6_degenerate_inputs 6 2 3 1 10).2 (by decide) (by decide)

/-- C9 fails as stated: with `n = 3`, `a = 2`, `b = -1`, `c = -1` (so
`n ≥ 1` and `a ≥ 1`) the returned trajectory is `[3, -4, -2, -1, 0]`,
which contains non-positive elements. -/
theorem claim_c9_counterexample :
    (CollatzGenerator.generalized_collatz 3 2 (-1) (-1) 10).all
        (fun x => decide (0 < x)) = false ∧
    CollatzGenerator.generalized_collatz 3 2 (-1) (-1) 10 = [3, -4, -2, -1, 0] := by
  decide

open CollatzGenerator in
/-- C9 amended: for every `n ≥ 1` and `a ≥ 1`, and non-negative `b` and `c`
not both zero, every element of the trajectory returned by
`generalized_collatz` is a positive integer.  (The extra condition on
`b`, `c` is forced by the counterexample: a negative or vanishing odd-step
image escapes the positive domain.) -/
theorem claim_c9_amended_positivity :
    ∀ (n a b c : ℤ) (M : ℕ), 1 ≤ n → 1 ≤ a → 0 ≤ b → 0 ≤ c → 1 ≤ b + c →
      (generalized_collatz n a b c M).all (fun x => decide (0 < x)) = true := by
  intro n a b c M hn ha hb hc hbc
  rw [List.all_eq_true]
  intro x hx
  rw [decide_eq_true_eq]
  rw [(generalized_collatz_valid b c M hn ha).1] at hx
  exact collatz_loop_pos ha hb hc hbc M [n] n (by simpa using hn) (by omega) x hx

/-- Witness for the amended C9 at a concrete input. -/
theorem claim_c9_amended_positivity_witness :
    (CollatzGenerator.generalized_collatz 6 2 3 1 20).all
        (fun x => decide (0 < x)) = true :=
  claim_c9_amended_positivity 6 2 3 1 20 (by decide) (by decide) (by decide)
    (by decide) (by decide)

open CollatzGenerator in
/-- C10: in every returned trajectory, all elements except possibly the
last are pairwise distinct; if the trajectory is not duplicate-free then
the generation stopped through cycle detection; and no value occurs more
than twice (the duplicated last element matches exactly one earlier
occurrence, since the prefix is duplicate-free). -/
theorem claim_c10_no_duplicates :
    ∀ (n a b c : ℤ) (M : ℕ),
      (generalized_collatz n a b c M).dropLast.Nodup ∧
      ((generalized_collatz n a b c M).Nodup ∨
        generation_stop_reason n a b c M = some StopReason.cycleDetected) ∧
      ∀ x : ℤ, (generalized_collatz n a b c M).count x ≤ 2 := by
  intro n a b c M
  by_cases h : n ≤ 0 ∨ a ≤ 0
  · have he : generalized_collatz n a b c M = [] := by
      unfold generalized_collatz generalized_collatz_run
      rw [if_pos h]
    simp [he]
  · push_neg at h
    obtain ⟨hg, hr⟩ := generalized_collatz_valid b c M
      (by omega : (1 : ℤ) ≤ n) (by omega : (1 : ℤ) ≤ a)
    obtain ⟨hdl, hor, hcnt⟩ := collatz_loop_nodup a b c M [n] n (by simp)
    refine ⟨by rw [hg]; exact hdl, ?_, by rw [hg]; exact hcnt⟩
    rcases hor with h' | h'
    · exact Or.inl (by rw [hg]; exact h')
    · exact Or.inr (by rw [hr, h'])

/-! ## Leading-digit lemmas and claims -/

namespace BenfordAnalyzer

/-- `log10floor_go` with sufficient fuel brackets its argument between
consecutive powers of 10. -/
lemma log10floor_go_bounds :
    ∀ (fuel n : ℕ), 1 ≤ n → n ≤ fuel →
      10 ^ log10floor_go fuel n ≤ n ∧ n < 10 ^ (log10floor_go fuel n + 1) := by
  intro fuel
  induction fuel with
  | zero => intro n h1 h2; exact absurd h1 (by omega)
  | succ f ih =>
      intro n h1 h2
      simp only [log10floor_go]
      split_ifs with h
      · simpa using ⟨h1, h⟩
      · push_neg at h
        have hdiv1 : 1 ≤ n / 10 := by omega
        have hdivf : n / 10 ≤ f := by omega
        obtain ⟨hl, hu⟩ := ih (n / 10) hdiv1 hdivf
        have hB : (10 : ℕ) ^ (log10floor_go f (n / 10) + 1) =
            10 ^ log10floor_go f (n / 10) * 10 := pow_succ 10 _
        have hC : (10 : ℕ) ^ (log10floor_go f (n / 10) + 1 + 1) =
            10 ^ (log10floor_go f (n / 10) + 1) * 10 := pow_succ 10 _
        constructor <;> omega

/-- On a positive input the exact-arithmetic extractor returns a digit
between 1 and 9. -/
lemma get_leading_digit_pos {n : ℤ} (hn : 0 < n) :
    ∃ d, get_leading_digit n = some d ∧ 1 ≤ d ∧ d ≤ 9 := by
  have h1 : 1 ≤ n.natAbs := by omega
  obtain ⟨hl, hu⟩ := log10floor_go_bounds n.natAbs n.natAbs h1 le_rfl
  have hpow : 0 < (10 : ℕ) ^ log10floor n.natAbs := pow_pos (by omega) _
  refine ⟨n.natAbs / 10 ^ log10floor n.natAbs, ?_, ?_, ?_⟩
  · unfold get_leading_digit
    rw [if_neg (by omega : ¬ n ≤ 0)]
  · exact (Nat.one_le_div_iff hpow).mpr hl
  · have hlt : n.natAbs / 10 ^ log10floor n.natAbs < 10 := by
      rw [Nat.div_lt_iff_lt_mul hpow]
      calc n.natAbs < 10 ^ (log10floor n.natAbs + 1) := hu
        _ = 10 ^ log10floor n.natAbs * 10 := pow_succ 10 _
        _ = 10 * 10 ^ log10floor n.natAbs := mul_comm _ _
    omega

/-- A list element contributes exactly one count to the digit histogram
when it passes the function's guard chain — positive, and with an
extracted digit in `1..9` — and none otherwise, for an arbitrary digit
extractor. -/
lemma digit_indicator_sum (gld : ℤ → Option ℕ) (x : ℤ) :
    (∑ i : Fin 9,
        if decide (0 < x) && (gld x == some ((i : ℕ) + 1)) then (1 : ℕ) else 0) =
      if decide (0 < x) &&
          (match gld x with
            | some d => decide (1 ≤ d ∧ d ≤ 9)
            | none => false) then 1 else 0 := by
  by_cases hx : 0 < x
  · cases hgld : gld x with
    | none => simp [hgld]
    | some d =>
        by_cases hd : 1 ≤ d ∧ d ≤ 9
        · obtain ⟨hd1, hd9⟩ := hd
          have key : ∀ i : Fin 9,
              (if decide (0 < x) && (some d == some ((i : ℕ) + 1)) then (1 : ℕ) else 0) =
                if i = (⟨d - 1, by omega⟩ : Fin 9) then 1 else 0 := by
            intro i
            by_cases hcase : d = (i : ℕ) + 1
            · rw [if_pos (by rw [hcase]; simp [hx] :
                  (decide (0 < x) && (some d == some ((i : ℕ) + 1))) = true)]
              rw [if_pos (show i = ⟨d - 1, by omega⟩ by
                apply Fin.ext
                simp only [Fin.val_mk]
                omega)]
            · rw [if_neg (by simp [hx, hcase] :
                  ¬ (decide (0 < x) && (some d == some ((i : ℕ) + 1))) = true)]
              rw [if_neg (show ¬ i = ⟨d - 1, by omega⟩ from fun hcontra => hcase (by
                have := congrArg Fin.val hcontra
                simp only [Fin.val_mk] at this
                omega))]
          rw [Finset.sum_congr rfl fun i _ => key i]
          rw [Finset.sum_ite_eq' Finset.univ (⟨d - 1, by omega⟩ : Fin 9) fun _ => (1 : ℕ)]
          simp [hgld, hx, hd1, hd9]
        · have key : ∀ i : Fin 9,
              (if decide (0 < x) && (some d == some ((i : ℕ) + 1)) then (1 : ℕ) else 0) = 0 := by
            intro i
            have hi := i.isLt
            rw [if_neg (by simp [hx]; omega :
              ¬ (decide (0 < x) && (some d == some ((i : ℕ) + 1))) = true)]
          rw [Finset.sum_congr rfl fun i _ => key i]
          simp [hgld, hd]
  · simp [hx]

end BenfordAnalyzer

/-- C2 (the required exact behaviour at the failing input): at
`n = 10^16 - 1` an exact leading-digit extraction returns 9 — both for the
string-based implementation of src/collatz_generator.py and for the
log10-based formula of src/benford_analyzer.py evaluated in exact
arithmetic.  (The Python benford_analyzer implementation evaluates that
formula in IEEE-754 double precision, where `float(10**16 - 1)` rounds to
`10**16` and the final division rounds to `0.9999999999999999`, so the
running code returns 0 — contradicting its own docstring and the spec's
exactness requirement.) -/
theorem claim_c2_exact_leading_digit :
    CollatzGenerator.get_leading_digit ((10 : ℤ) ^ 16 - 1) = some 9 ∧
    BenfordAnalyzer.get_leading_digit ((10 : ℤ) ^ 16 - 1) = some 9 := by
  decide

/-- C7 fails as stated: on the input `[1]` the histogram of
`analyze_leading_digits` sums to 1, while the input has no element
strictly greater than 1.  (At the input value 1 the extractor's
double-precision arithmetic is exact — `log10(1)` is exactly 0 and
`1/1` exactly 1 — so instantiating the extractor with its
exact-arithmetic idealization is faithful here.) -/
theorem claim_c7_counterexample :
    (∑ i : Fin 9, BenfordAnalyzer.analyze_leading_digits
        BenfordAnalyzer.get_leading_digit [(1 : ℤ)] i) = 1 ∧
    ([(1 : ℤ)].countP fun x => decide (1 < x)) = 0 := by
  decide

/-- C7 amended: for every digit extractor and every input sequence, all
nine digit keys are present (the histogram is a total function on the
nine digits), and the counts sum to the number of elements satisfying the
qualifying condition the function actually implements — element strictly
positive (`number > 0`) and extracted digit inside `1..9`.  This holds in
particular for the source's IEEE-754 extractor: the value 1 qualifies
(deliberately, per the inline comment in the Python function, and its
float digit is exactly 1), so the spec's strictly-greater-than-1
condition is wrong; and a positive element whose float-extracted digit
falls outside `1..9` (e.g. `10^16 - 1`, whose float digit is 0 — see the
C2 analysis) is silently dropped, so the count of positive elements is
not the right total either. -/
theorem claim_c7_amended_histogram_sum :
    ∀ (gld : ℤ → Option ℕ) (sequence : List ℤ),
      (∑ i : Fin 9, BenfordAnalyzer.analyze_leading_digits gld sequence i) =
        sequence.countP fun x =>
          decide (0 < x) &&
            (match gld x with
              | some d => decide (1 ≤ d ∧ d ≤ 9)
              | none => false) := by
  intro gld sequence
  induction sequence with
  | nil => simp [BenfordAnalyzer.analyze_leading_digits]
  | cons x xs ih =>
      unfold BenfordAnalyzer.analyze_leading_digits at ih ⊢
      simp only [List.countP_cons]
      rw [Finset.sum_add_distrib, ih, BenfordAnalyzer.digit_indicator_sum gld x]

/-! ## Trivial-state classifier claims -/

/-- The classifier chain of src/collatz_generator.py realizes exactly the
spec's five-rule set. -/
lemma is_trivial_iff_rules (a b c : ℤ) :
    CollatzGenerator.is_trivial a b c = true ↔ spec_trivial_rules a b c := by
  have hdvd : b % a = 0 ↔ a ∣ b :=
    ⟨Int.dvd_of_emod_eq_zero, Int.emod_eq_zero_of_dvd⟩
  unfold CollatzGenerator.is_trivial spec_trivial_rules
  split_ifs with h1 h2 h3 h4 h5
  · exact iff_of_true rfl (Or.inl h1)
  · exact iff_of_true rfl (Or.inr (Or.inl h2))
  · exact iff_of_true rfl (Or.inr (Or.inr (Or.inl h3)))
  · exact iff_of_true rfl
      (Or.inr (Or.inr (Or.inr (Or.inl ⟨h4.1, hdvd.mp h4.2⟩))))
  · exact iff_of_true rfl (Or.inr (Or.inr (Or.inr (Or.inr h5))))
  · refine iff_of_false (by simp) ?_
    rintro (h | h | h | ⟨hc0, hdv⟩ | h)
    · exact h1 h
    · exact h2 h
    · exact h3 h
    · exact h4 ⟨hc0, hdvd.mpr hdv⟩
    · exact h5 h

/-- The classifier chain of src/pipeline.py realizes its own four-rule
set. -/
lemma pipeline_is_trivial_iff_rules (a b c : ℤ) :
    Pipeline.is_trivial a b c = true ↔ pipeline_trivial_rules a b c := by
  have hdvd : b % 2 = 0 ↔ (2 : ℤ) ∣ b :=
    ⟨Int.dvd_of_emod_eq_zero, Int.emod_eq_zero_of_dvd⟩
  unfold Pipeline.is_trivial pipeline_trivial_rules
  split_ifs with h1 h2 h3 h4
  · exact iff_of_true rfl (Or.inl h1)
  · exact iff_of_true rfl (Or.inr (Or.inl h2))
  · exact iff_of_true rfl (Or.inr (Or.inr (Or.inl ⟨h3.1, hdvd.mp h3.2⟩)))
  · exact iff_of_true rfl (Or.inr (Or.inr (Or.inr h4)))
  · refine iff_of_false (by simp) ?_
    rintro (h | h | ⟨hc0, hdv⟩ | h)
    · exact h1 h
    · exact h2 h
    · exact h3 ⟨hc0, hdvd.mpr hdv⟩
    · exact h4 h

/-- C4 fails as stated for the src/pipeline.py scanner: the spec's rule 1
(`a = 1`) classifies `(1, 5, 3)` as trivial, and the cube `{1}×{5}×{3}`
contains it, yet the pipeline bulk operation enumerates no trivial triple
there at all. -/
theorem claim_c4_counterexample :
    spec_trivial_rules 1 5 3 ∧
    CollatzGenerator.is_trivial 1 5 3 = true ∧
    Pipeline.is_trivial 1 5 3 = false ∧
    Pipeline.add_trivial_patterns [1] [5] [3] = [] := by
  refine ⟨Or.inl rfl, by decide, by decide, by decide⟩

/-- C4 amended: the five ordered rules (first match governs; since every
rule classifies as trivial, equivalently their disjunction) characterize
exactly the triples enumerated by `add_trivial_patterns` of the
src/collatz_generator.py scanner — in particular `(1, 5, 3)` is trivial
and `(5, 5, 1)` is not; the src/pipeline.py scanner instead enumerates by
its own four rules, which omit the `a = 1` rule and test `b` even rather
than `b ≡ 0 (mod a)`. -/
theorem claim_c4_amended_classifier :
    (∀ (aR bR cR : List ℤ) (a b c : ℤ),
      (a, b, c) ∈ CollatzGenerator.add_trivial_patterns aR bR cR ↔
        a ∈ aR ∧ b ∈ bR ∧ c ∈ cR ∧ spec_trivial_rules a b c) ∧
    (∀ (aR bR cR : List ℤ) (a b c : ℤ),
      (a, b, c) ∈ Pipeline.add_trivial_patterns aR bR cR ↔
        a ∈ aR ∧ b ∈ bR ∧ c ∈ cR ∧ pipeline_trivial_rules a b c) ∧
    CollatzGenerator.is_trivial 1 5 3 = true ∧
    CollatzGenerator.is_trivial 5 5 1 = false := by
  refine ⟨?_, ?_, by decide, by decide⟩
  · intro aR bR cR a b c
    unfold CollatzGenerator.add_trivial_patterns CollatzGenerator.cube_triples
    simp only [List.mem_filter, List.mem_flatMap, List.mem_map]
    constructor
    · rintro ⟨⟨a', ha', b', hb', c', hc', heq⟩, htriv⟩
      rw [Prod.mk.injEq, Prod.mk.injEq] at heq
      obtain ⟨rfl, rfl, rfl⟩ := heq
      exact ⟨ha', hb', hc', (is_trivial_iff_rules _ _ _).mp htriv⟩
    · rintro ⟨ha, hb, hc, htriv⟩
      exact ⟨⟨a, ha, b, hb, c, hc, rfl⟩,
        (is_trivial_iff_rules a b c).mpr htriv⟩
  · intro aR bR cR a b c
    unfold Pipeline.add_trivial_patterns CollatzGenerator.cube_triples
    simp only [List.mem_filter, List.mem_flatMap, List.mem_map]
    constructor
    · rintro ⟨⟨a', ha', b', hb', c', hc', heq⟩, htriv⟩
      rw [Prod.mk.injEq, Prod.mk.injEq] at heq
      obtain ⟨rfl, rfl, rfl⟩ := heq
      exact ⟨ha', hb', hc', (pipeline_is_trivial_iff_rules _ _ _).mp htriv⟩
    · rintro ⟨ha, hb, hc, htriv⟩
      exact ⟨⟨a, ha, b, hb, c, hc, rfl⟩,
        (pipeline_is_trivial_iff_rules a b c).mpr htriv⟩

/-! ## Degenerate-statistics claims -/

/-- C3 fails as stated for the standalone metric helpers of
src/collatz_generator.py: on an all-zero histogram `calculate_mad` and
`calculate_dmix` return NaN (modelled `none`), not the sentinel 1.0. -/
theorem claim_c3_counterexample :
    CollatzGenerator.calculate_mad (fun _ => 0) = none ∧
    CollatzGenerator.calculate_mad (fun _ => 0) ≠ some 1 ∧
    CollatzGenerator.calculate_dmix (fun _ => 0) = none ∧
    CollatzGenerator.calculate_dmix (fun _ => 0) ≠ some 1 := by
  refine ⟨?_, ?_, ?_, ?_⟩ <;>
    simp [CollatzGenerator.calculate_mad, CollatzGenerator.calculate_dmix]

/-- C3 amended: on a zero-total histogram `analyze_conformity`
(src/statistical_tests.py) returns the sentinels MAD = 1.0 and
p-value = 1.0 without raising; the standalone `calculate_mad` and
`calculate_dmix` of src/collatz_generator.py instead return NaN (modelled
`none`); and the NaN never propagates to a ranking comparison because
`find_best_benford_conformity` filters such results out before sorting. -/
theorem claim_c3_amended_sentinels :
    (∀ (chi2sf : ℝ → ℝ) (observed_counts : Fin 9 → ℕ),
      (∑ i, observed_counts i) = 0 →
      (StatisticalTests.analyze_conformity chi2sf observed_counts).mad = 1 ∧
      (StatisticalTests.analyze_conformity chi2sf observed_counts).p_value = 1) ∧
    (∀ observed_counts : Fin 9 → ℕ, (∑ i, observed_counts i) = 0 →
      CollatzGenerator.calculate_mad observed_counts = none ∧
      CollatzGenerator.calculate_dmix observed_counts = none) ∧
    (∀ (results : List CollatzGenerator.ScanResult) (top_n : ℕ)
        (r : CollatzGenerator.ScanResult),
      r ∈ CollatzGenerator.find_best_benford_conformity results top_n →
      r.mad.isSome = true) := by
  refine ⟨?_, ?_, ?_⟩
  · intro chi2sf observed_counts h
    unfold StatisticalTests.analyze_conformity
    rw [if_pos h]
    exact ⟨rfl, rfl⟩
  · intro observed_counts h
    constructor
    · unfold CollatzGenerator.calculate_mad
      rw [if_pos h]
    · unfold CollatzGenerator.calculate_dmix
      rw [if_pos h]
  · intro results top_n r hr
    unfold CollatzGenerator.find_best_benford_conformity at hr
    have h1 := List.mem_of_mem_take hr
    have h2 : r ∈ results.filter fun r => r.mad.isSome :=
      ((List.mergeSort_perm _ _).mem_iff).mp h1
    exact (List.mem_filter.mp h2).2

/-- Witness for the amended C3 at the all-zero histogram. -/
theorem claim_c3_amended_sentinels_witness :
    (StatisticalTests.analyze_conformity id (fun _ => 0)).mad = 1 ∧
    CollatzGenerator.calculate_mad (fun _ => 0) = none :=
  ⟨(claim_c3_amended_sentinels.1 id (fun _ => 0) (by simp)).1,
   (claim_c3_amended_sentinels.2.1 (fun _ => 0) (by simp)).1⟩

/-! ## Hole-exclusion claim -/

/-- C8: a triple placed in the hole set before a scan is never analyzed:
its parameter tuple does not occur among the parameters of the returned
result collection, for either scanner implementation. -/
theorem claim_c8_holes_never_scored (center : ℤ × ℤ × ℤ) (side : ℕ)
    (holes : Finset (ℤ × ℤ × ℤ)) (initial_range : ℤ × ℤ)
    (max_iterations : ℕ) (chi2sf : ℝ → ℝ) (t : ℤ × ℤ × ℤ)
    (h : t ∈ holes) :
    ((CollatzGenerator.scan_cube center side holes initial_range
        max_iterations).map CollatzGenerator.ScanResult.parameters).count t = 0 ∧
    ((Pipeline.scan_cube chi2sf center side holes initial_range
        max_iterations).map Pipeline.ScanRecord.parameters).count t = 0 := by
  constructor
  · rw [List.count_eq_zero]
    intro hmem
    rcases List.mem_map.mp hmem with ⟨r, hr, hrt⟩
    unfold CollatzGenerator.scan_cube at hr
    rcases List.mem_map.mp hr with ⟨u, hu, hur⟩
    have hnot : u ∉ holes := of_decide_eq_true (List.mem_filter.mp hu).2
    have hut : u = t := by rw [← hrt, ← hur]; rfl
    rw [hut] at hnot
    exact hnot h
  · rw [List.count_eq_zero]
    intro hmem
    rcases List.mem_map.mp hmem with ⟨r, hr, hrt⟩
    unfold Pipeline.scan_cube at hr
    rcases List.mem_map.mp hr with ⟨u, hu, hur⟩
    have hnot : u ∉ holes := of_decide_eq_true (List.mem_filter.mp hu).2
    have hut : u = t := by rw [← hrt, ← hur]; rfl
    rw [hut] at hnot
    exact hnot h

/-- Witness for C8: a 1-cube whose only triple is a hole scans to an empty
result collection. -/
theorem claim_c8_holes_never_scored_witness :
    ((CollatzGenerator.scan_cube (2, 3, 1) 1 {(2, 3, 1)} (1, 2) 3).map
        CollatzGenerator.ScanResult.parameters).count (2, 3, 1) = 0 ∧
    ((Pipeline.scan_cube id (2, 3, 1) 1 {(2, 3, 1)} (1, 2) 3).map
        Pipeline.ScanRecord.parameters).count (2, 3, 1) = 0 :=
  claim_c8_holes_never_scored (2, 3, 1) 1 {(2, 3, 1)} (1, 2) 3 id (2, 3, 1)
    (Finset.mem_singleton.mpr rfl)
